import Mathlib

/-!
Verification of the dash package manager (src/dash/dash.py) against its
natural-language specification.

The Python program is shallowly embedded: HTTP is modelled as a function from
URL strings to optional responses (`none` models a transport-level exception
raised by the HTTP client), JSON bodies are restricted to the two shapes the
program actually manipulates (an array of package names, or an object), and
exception propagation is modelled with `Except`.  Python dicts are modelled as
association lists preserving insertion order, which is how Python dicts
iterate.
-/

deriving instance DecidableEq for Except

namespace Dash

/-- A parsed JSON document, restricted to the shapes the program manipulates:
`all.json` is an array of package names (or an object keyed by package name),
and `packages/{pkg}.json` is a metadata object. -/
inductive Json where
  | list (names : List String)
  | obj (fields : List (String × String))
deriving DecidableEq

/-- An HTTP response: a status code and a body.  `body = none` models a body
that is not well-formed JSON, so that `.json()` raises. -/
structure HttpResponse where
  status : Nat
  body : Option Json
deriving DecidableEq

/-- The network: what `requests.get` returns for each URL.  `none` models the
HTTP client raising a transport-level exception (connection failure). -/
def Network : Type := String → Option HttpResponse

/-- The exceptions the program can raise, tagged by program point:
`transport` is an exception from `requests.get`, `parseError` an exception
from `.json()`, `notFound` the "Package {pkg} does not exist!" exception in
`PkgRepo.get`, and `repoNotFound` the "Repo {repo} does not exist!" exception
in `RepoCollection.get` (also modelling the `KeyError` of
`repos.repos[args.repo]` in the install branch). -/
inductive DashError where
  | transport
  | parseError
  | notFound (pkg : String)
  | repoNotFound (repo : String)
deriving DecidableEq

/-- A package repository: `PkgRepo.__init__` stores a name and a base URL. -/
structure PkgRepo where
  name : String
  url : String
deriving DecidableEq

/-- The string representation of a repository, `PkgRepo.__str__`:
`f"Package Repo {self.name} @ {self.url}"`. -/
def PkgRepo.toStr (r : PkgRepo) : String :=
  "Package Repo " ++ r.name ++ " @ " ++ r.url

/-- The URL of a package's metadata document:
`f"{self.url}/packages/{pkg}.json"`. -/
def pkgUrl (r : PkgRepo) (pkg : String) : String :=
  r.url ++ "/packages/" ++ pkg ++ ".json"

/-- The URL of the full catalog document: `f"{self.url}/all.json"`. -/
def allUrl (r : PkgRepo) : String :=
  r.url ++ "/all.json"

/-- Whether the pattern characters are an initial segment of the other list
(helper for Python's substring test). -/
def leadMatch : List Char → List Char → Bool
  | [], _ => true
  | _ :: _, [] => false
  | a :: pat, b :: s => a == b && leadMatch pat s

/-- Whether the pattern characters occur contiguously somewhere in the other
list (helper for Python's substring test). -/
def hasSub : List Char → List Char → Bool
  | pat, [] => pat.isEmpty
  | pat, c :: rest => leadMatch pat (c :: rest) || hasSub pat rest

/-- Python's `term in pkgName`: case-sensitive, unanchored substring
containment of `term` in `s`. -/
def strIn (term s : String) : Bool :=
  hasSub term.toList s.toList

/-- Embedding of `PkgRepo.exists`: one GET of the package's metadata URL; returns `False`
exactly when the status code is 404, `True` for any other status.  An
exception from the HTTP client propagates. -/
def PkgRepo.exists (r : PkgRepo) (net : Network) (pkg : String) :
    Except DashError Bool :=
  match net (pkgUrl r pkg) with
  | none => .error .transport
  | some resp => if resp.status = 404 then .ok false else .ok true

/-- Embedding of `PkgRepo.get`: raises "Package {pkg} does not exist!" when `exists` is
false, otherwise performs a second GET of the same URL and returns the parsed
JSON body; `.json()` raising on a malformed body is `parseError`. -/
def PkgRepo.get (r : PkgRepo) (net : Network) (pkg : String) :
    Except DashError Json :=
  match r.exists net pkg with
  | .error e => .error e
  | .ok false => .error (.notFound pkg)
  | .ok true =>
    match net (pkgUrl r pkg) with
    | none => .error .transport
    | some resp =>
      match resp.body with
      | none => .error .parseError
      | some data => .ok data

/-- The package names produced by Python's `for pkgName in data`: the elements
of a JSON array, or the keys of a JSON object. -/
def jsonNames : Json → List String
  | .list names => names
  | .obj fields => fields.map Prod.fst

/-- Embedding of `PkgRepo.search`: one GET of `all.json`, then keep, in catalog order, the
package names that contain `term` as a substring. -/
def PkgRepo.search (r : PkgRepo) (net : Network) (term : String) :
    Except DashError (List String) :=
  match net (allUrl r) with
  | none => .error .transport
  | some resp =>
    match resp.body with
    | none => .error .parseError
    | some data => .ok ((jsonNames data).filter fun pkgName => strIn term pkgName)

/-- Embedding of `PkgRepo.list`: one GET of `all.json`, returning the parsed catalog
document verbatim. -/
def PkgRepo.list (r : PkgRepo) (net : Network) : Except DashError Json :=
  match net (allUrl r) with
  | none => .error .transport
  | some resp =>
    match resp.body with
    | none => .error .parseError
    | some data => .ok data

/-- A collection of package repositories.  The Python dict `self.repos` is
modelled as an association list in insertion order: assigning to an existing
key replaces the value in place, assigning to a fresh key appends, and
iteration follows this order, exactly as Python dicts behave. -/
structure RepoCollection where
  repos : List (String × PkgRepo)
deriving DecidableEq

/-- Embedding of `RepoCollection.__init__`: the collection starts with an empty dict. -/
def emptyCollection : RepoCollection := ⟨[]⟩

/-- Python dict assignment `d[k] = v`: replace in place when the key is
present, append otherwise. -/
def updateAssoc : List (String × PkgRepo) → String → PkgRepo →
    List (String × PkgRepo)
  | [], k, v => [(k, v)]
  | (k', v') :: rest, k, v =>
    if k' = k then (k, v) :: rest else (k', v') :: updateAssoc rest k v

/-- Python dict lookup `k in d` / `d[k]` on the association list. -/
def lookupRepo : List (String × PkgRepo) → String → Option PkgRepo
  | [], _ => none
  | (k', v') :: rest, k => if k' = k then some v' else lookupRepo rest k

/-- Embedding of `RepoCollection.add`: `self.repos[repo.name] = repo`. -/
def RepoCollection.add (c : RepoCollection) (repo : PkgRepo) : RepoCollection :=
  ⟨updateAssoc c.repos repo.name repo⟩

/-- The result shape of `RepoCollection.exists`: the Python function returns
the boolean `False` when no repository reported the package, and otherwise
the non-empty list `repoNames`; the union type is modelled as a tagged
variant. -/
inductive ExistsResult where
  | notFound
  | foundIn (names : List String)
deriving DecidableEq

/-- The loop of `RepoCollection.exists`: visit each registered repository in
iteration order, appending `repo.name` whenever `repo.exists(pkg)` is true; a
repository raising propagates and abandons the rest of the loop. -/
def collectExists (net : Network) (pkg : String) :
    List (String × PkgRepo) → Except DashError (List String)
  | [] => .ok []
  | (_, repo) :: rest =>
    match repo.exists net pkg with
    | .error e => .error e
    | .ok b =>
      match collectExists net pkg rest with
      | .error e => .error e
      | .ok names => .ok (if b then repo.name :: names else names)

/-- Embedding of `RepoCollection.exists`: run the loop; return `False` when `repoNames`
came back empty, the list itself otherwise. -/
def RepoCollection.exists (c : RepoCollection) (net : Network) (pkg : String) :
    Except DashError ExistsResult :=
  match collectExists net pkg c.repos with
  | .error e => .error e
  | .ok [] => .ok .notFound
  | .ok names => .ok (.foundIn names)

/-- Embedding of `RepoCollection.get`: raise "Repo {repo} does not exist!" when the name is
not a key of the dict, otherwise delegate to that repository's `get`. -/
def RepoCollection.get (c : RepoCollection) (net : Network)
    (pkg repoName : String) : Except DashError Json :=
  match lookupRepo c.repos repoName with
  | none => .error (.repoNotFound repoName)
  | some repo => repo.get net pkg

/-- The loop of `RepoCollection.search`: `results[repo.name] = repo.search(term)`
for each registered repository in iteration order; a repository raising
propagates, discarding all results gathered so far. -/
def collectSearch (net : Network) (term : String) :
    List (String × PkgRepo) → Except DashError (List (String × List String))
  | [] => .ok []
  | (_, repo) :: rest =>
    match repo.search net term with
    | .error e => .error e
    | .ok found =>
      match collectSearch net term rest with
      | .error e => .error e
      | .ok tail => .ok ((repo.name, found) :: tail)

/-- Embedding of `RepoCollection.search`: the per-repository result mapping. -/
def RepoCollection.search (c : RepoCollection) (net : Network) (term : String) :
    Except DashError (List (String × List String)) :=
  collectSearch net term c.repos

/-- The loop of `RepoCollection.list`: `results[repo.name] = repo.list()` for
each registered repository in iteration order; a repository raising
propagates, discarding all results gathered so far. -/
def collectList (net : Network) :
    List (String × PkgRepo) → Except DashError (List (String × Json))
  | [] => .ok []
  | (_, repo) :: rest =>
    match repo.list net with
    | .error e => .error e
    | .ok catalog =>
      match collectList net rest with
      | .error e => .error e
      | .ok tail => .ok ((repo.name, catalog) :: tail)

/-- Embedding of `RepoCollection.list`: the per-repository catalog mapping. -/
def RepoCollection.list (c : RepoCollection) (net : Network) :
    Except DashError (List (String × Json)) :=
  collectList net c.repos

/-- Python's `", ".join(strings)`. -/
def pyJoin (sep : String) : List String → String
  | [] => ""
  | [s] => s
  | s :: rest => s ++ sep ++ pyJoin sep rest

/-- Python's `for repo in self.repos` on a dict: iteration yields the keys in
insertion order. -/
def dictIter (c : RepoCollection) : List String :=
  c.repos.map Prod.fst

/-- Embedding of `RepoCollection.__str__`:
`f"Repo Collection: {', '.join([str(repo) for repo in self.repos])}"`.
The comprehension iterates the dict itself, so `repo` ranges over the keys
(strings), and `str` of a string is that string. -/
def RepoCollection.toStr (c : RepoCollection) : String :=
  "Repo Collection: " ++ pyJoin ", " ((dictIter c).map fun repo => repo)

/-- Python truthiness of `args.repo` negated: `not args.repo` is true when the
option is absent or the empty string. -/
def argFalsy : Option String → Bool
  | none => true
  | some s => s.isEmpty

/-- The outcomes of the `install` branch of `__main__`:
`exitPkgNotFound`, `exitAmbiguous` and `exitPkgNotInRepo` are the three
`logger.critical(...); exit(1)` sites (in `exitAmbiguous` the critical message
lists the candidate repository names, `", ".join(res)`); `installHandoff` is
the "Package exists in specified repo" point (the TODO install); `installSingleRepo`
is the empty trailing `else` branch (unimplemented in the source); `err` is a
propagated exception. -/
inductive InstallResult where
  | exitPkgNotFound
  | exitAmbiguous (candidates : List String)
  | exitPkgNotInRepo (repoName : String)
  | installHandoff (repoName : String)
  | installSingleRepo
  | err (e : DashError)
deriving DecidableEq

/-- The `install` branch of `__main__`: check existence everywhere; exit on
"does not exist"; exit listing candidates when the package is in more than
one repository and `--repo` was not given; with `--repo`, look the repository
up (`repos.repos[args.repo]`, a `KeyError` when absent) and re-check
existence there. -/
def installAction (c : RepoCollection) (net : Network) (query : String)
    (repoArg : Option String) : InstallResult :=
  match c.exists net query with
  | .error e => .err e
  | .ok .notFound => .exitPkgNotFound
  | .ok (.foundIn res) =>
    if decide (1 < res.length) && argFalsy repoArg then
      .exitAmbiguous res
    else if argFalsy repoArg then
      .installSingleRepo
    else
      match repoArg with
      | none => .installSingleRepo
      | some repoName =>
        match lookupRepo c.repos repoName with
        | none => .err (.repoNotFound repoName)
        | some repo =>
          match repo.exists net query with
          | .error e => .err e
          | .ok true => .installHandoff repoName
          | .ok false => .exitPkgNotInRepo repoName

/-! Concrete fixtures: two small repositories and networks used to witness
the theorems below on closed inputs. -/

/-- Fixture repository "A" at base URL "a". -/
def repoA : PkgRepo := ⟨"A", "a"⟩

/-- Fixture repository "B" at base URL "b". -/
def repoB : PkgRepo := ⟨"B", "b"⟩

/-- Fixture repository "C" at base URL "c". -/
def repoC : PkgRepo := ⟨"C", "c"⟩

/-- Fixture network: "foo" lives in A and B (but not C); each repository
serves a catalog under `all.json`; everything else is 404. -/
def netAB : Network := fun u =>
  if u = "a/packages/foo.json" then some ⟨200, some (.obj [("version", "1")])⟩
  else if u = "b/packages/foo.json" then some ⟨200, some (.obj [("version", "2")])⟩
  else if u = "a/all.json" then some ⟨200, some (.list ["foo", "foobar", "baz"])⟩
  else if u = "b/all.json" then some ⟨200, some (.list ["foo"])⟩
  else if u = "c/all.json" then some ⟨200, some (.list ["qux"])⟩
  else some ⟨404, none⟩

/-- Fixture network where every request to repository B raises a transport
error and the others behave as in `netAB`. -/
def netBdown : Network := fun u =>
  if u = "b/packages/foo.json" then none
  else if u = "b/all.json" then none
  else netAB u

/-- Fixture network where every request is answered with HTTP status 500. -/
def net500 : Network := fun _ => some ⟨500, none⟩

/-- Fixture collection holding repositories A and B. -/
def collAB : RepoCollection := (emptyCollection.add repoA).add repoB

/-- Fixture collection holding repositories A, B and C. -/
def collABC : RepoCollection := ((emptyCollection.add repoA).add repoB).add repoC

/-! Supporting lemmas. -/

/-- The test `leadMatch` holds exactly when the pattern is an initial segment. -/
theorem leadMatch_iff (p : List Char) : ∀ l : List Char,
    leadMatch p l = true ↔ ∃ rest, l = p ++ rest := by
  induction p with
  | nil => intro l; simp [leadMatch]
  | cons a pat ih =>
    intro l
    cases l with
    | nil => simp [leadMatch]
    | cons b s =>
      simp only [leadMatch, Bool.and_eq_true, beq_iff_eq, ih, List.cons_append]
      constructor
      · rintro ⟨rfl, rest, rfl⟩
        exact ⟨rest, rfl⟩
      · rintro ⟨rest, h⟩
        cases h
        exact ⟨rfl, rest, rfl⟩

/-- The test `hasSub` holds exactly when the pattern occurs contiguously. -/
theorem hasSub_iff (p : List Char) : ∀ l : List Char,
    hasSub p l = true ↔ ∃ pre post, l = pre ++ (p ++ post) := by
  intro l
  induction l with
  | nil =>
    simp only [hasSub, List.isEmpty_iff]
    constructor
    · rintro rfl
      exact ⟨[], [], rfl⟩
    · rintro ⟨pre, post, h⟩
      rcases List.append_eq_nil.mp h.symm with ⟨rfl, h2⟩
      exact (List.append_eq_nil.mp h2).1
  | cons c rest ih =>
    simp only [hasSub, Bool.or_eq_true, leadMatch_iff, ih]
    constructor
    · rintro (⟨tail, h⟩ | ⟨pre, post, h⟩)
      · exact ⟨[], tail, by simp [h]⟩
      · exact ⟨c :: pre, post, by simp [h]⟩
    · rintro ⟨pre, post, h⟩
      cases pre with
      | nil => exact Or.inl ⟨post, by simpa using h⟩
      | cons d pre2 =>
        right
        rcases List.cons_eq_cons.mp h with ⟨rfl, h2⟩
        exact ⟨pre2, post, h2⟩

/-- The test `strIn` is Python's `in`: contiguous substring containment over the
underlying character lists. -/
theorem strIn_iff (term s : String) :
    strIn term s = true ↔
      ∃ pre post, s.toList = pre ++ term.toList ++ post := by
  simp only [strIn, hasSub_iff, List.append_assoc]

/-- The empty string is a substring of everything. -/
theorem strIn_empty (s : String) : strIn "" s = true :=
  (strIn_iff "" s).mpr ⟨[], s.toList, by simp⟩

/-- When every repository's existence check succeeds, the loop of
`RepoCollection.exists` collects exactly the names of the repositories that
reported true, in iteration order. -/
theorem collectExists_eq (net : Network) (pkg : String) :
    ∀ l : List (String × PkgRepo),
      (∀ e ∈ l, ∃ b, PkgRepo.exists e.2 net pkg = Except.ok b) →
      collectExists net pkg l =
        Except.ok ((l.filter fun e =>
          decide (PkgRepo.exists e.2 net pkg = Except.ok true)).map
            fun e => e.2.name) := by
  intro l
  induction l with
  | nil => intro _; rfl
  | cons e rest ih =>
    intro h
    obtain ⟨b, hb⟩ := h e (List.mem_cons_self e rest)
    have hrest := ih fun x hx => h x (List.mem_cons_of_mem e hx)
    obtain ⟨k, repo⟩ := e
    simp only [collectExists, hb, hrest]
    cases b with
    | true => simp [List.filter_cons, hb]
    | false =>
      have : ¬ (PkgRepo.exists repo net pkg = Except.ok true) := by
        rw [hb]; intro hcontra; cases hcontra
      simp [List.filter_cons, this, hb]

/-- Updating a key and then looking it up yields the new value. -/
theorem lookup_updateAssoc_self (k : String) (v : PkgRepo) :
    ∀ l : List (String × PkgRepo), lookupRepo (updateAssoc l k v) k = some v := by
  intro l
  induction l with
  | nil => simp [updateAssoc, lookupRepo]
  | cons e rest ih =>
    obtain ⟨k2, v2⟩ := e
    by_cases h : k2 = k
    · simp [updateAssoc, h, lookupRepo]
    · simp [updateAssoc, h, lookupRepo, ih]

/-- Updating one key leaves lookups of every other key unchanged. -/
theorem lookup_updateAssoc_other (k k2 : String) (v : PkgRepo) (hne : k2 ≠ k) :
    ∀ l : List (String × PkgRepo),
      lookupRepo (updateAssoc l k v) k2 = lookupRepo l k2 := by
  intro l
  have hne2 : ¬ k = k2 := fun h => hne h.symm
  induction l with
  | nil => simp [updateAssoc, lookupRepo, hne2]
  | cons e rest ih =>
    obtain ⟨k3, v3⟩ := e
    by_cases h : k3 = k
    · subst h
      simp [updateAssoc, lookupRepo, hne2]
    · simp only [updateAssoc, if_neg h]
      by_cases h2 : k3 = k2
      · simp [lookupRepo, h2]
      · simp [lookupRepo, h2, ih]

/-- Updating under the value's own name preserves the key-equals-name
invariant of the mapping. -/
theorem updateAssoc_keyed (v : PkgRepo) :
    ∀ l : List (String × PkgRepo), (∀ e ∈ l, e.1 = e.2.name) →
      ∀ e ∈ updateAssoc l v.name v, e.1 = e.2.name := by
  intro l
  induction l with
  | nil =>
    intro _ e he
    simp only [updateAssoc, List.mem_singleton] at he
    subst he
    rfl
  | cons x rest ih =>
    intro h e he
    obtain ⟨k2, v2⟩ := x
    by_cases hk : k2 = v.name
    · simp only [updateAssoc, if_pos hk, List.mem_cons] at he
      rcases he with rfl | he
      · rfl
      · exact h _ (List.mem_cons_of_mem _ he)
    · simp only [updateAssoc, if_neg hk, List.mem_cons] at he
      rcases he with rfl | he
      · exact h _ (List.mem_cons_self _ _)
      · exact ih (fun x hx => h x (List.mem_cons_of_mem _ hx)) e he

/-- A repository's `get` never raises the collection-level "Repo does not
exist" error. -/
theorem repo_get_ne_repoNotFound (r : PkgRepo) (net : Network) (pkg s : String) :
    PkgRepo.get r net pkg ≠ Except.error (DashError.repoNotFound s) := by
  unfold PkgRepo.get PkgRepo.exists
  cases net (pkgUrl r pkg) with
  | none => simp
  | some resp =>
    obtain ⟨st, body⟩ := resp
    by_cases h : st = 404
    · simp [h]
    · cases body <;> simp [h]

/-! Claim theorems. -/

/-- C1: when every registered repository's existence check succeeds,
`Collection.exists(p)` returns the boolean `False` exactly when no repository
reports that `p` exists, and otherwise exactly the (non-empty) list of names
of the repositories that report it, in registration order. -/
theorem collection_exists_spec (c : RepoCollection) (net : Network)
    (pkg : String)
    (h : ∀ e ∈ c.repos, ∃ b, PkgRepo.exists e.2 net pkg = Except.ok b) :
    RepoCollection.exists c net pkg =
      Except.ok
        (match (c.repos.filter fun e =>
            decide (PkgRepo.exists e.2 net pkg = Except.ok true)).map
              (fun e => e.2.name) with
         | [] => ExistsResult.notFound
         | names => ExistsResult.foundIn names) := by
  unfold RepoCollection.exists
  rw [collectExists_eq net pkg c.repos h]
  cases (c.repos.filter fun e =>
      decide (PkgRepo.exists e.2 net pkg = Except.ok true)).map
        (fun e => e.2.name) with
  | nil => rfl
  | cons n ns => rfl

/-- C1 witness: with repositories A and B both serving "foo",
`Collection.exists` returns the pair of names. -/
theorem collection_exists_spec_witness :
    RepoCollection.exists collAB netAB "foo" =
      Except.ok (ExistsResult.foundIn ["A", "B"]) :=
  (collection_exists_spec collAB netAB "foo" (by decide)).trans (by decide)

/-- C2: when `Collection.exists` resolves the queried package to more than one
repository and no `--repo` selector is given, the install action stops at the
`exit(1)` site whose critical message lists the candidate repository names; in
particular the outcome is not `installHandoff`, so no installation handoff is
attempted. -/
theorem install_ambiguous_aborts (c : RepoCollection) (net : Network)
    (query : String) (names : List String)
    (h1 : RepoCollection.exists c net query =
      Except.ok (ExistsResult.foundIn names))
    (h2 : 1 < names.length) :
    installAction c net query none = InstallResult.exitAmbiguous names := by
  unfold installAction
  rw [h1]
  simp [argFalsy, h2]

/-- C2 witness: "foo" lives in both A and B, install without `--repo` aborts
listing both names. -/
theorem install_ambiguous_aborts_witness :
    installAction collAB netAB "foo" none =
      InstallResult.exitAmbiguous ["A", "B"] :=
  install_ambiguous_aborts collAB netAB "foo" ["A", "B"] (by decide) (by decide)

/-- C3: `Repository.search(t)` equals the catalog fetched by
`Repository.list()` filtered, in catalog order, to the names containing `t`
as a case-sensitive unanchored substring (`strIn`, characterised by the
second conjunct); with the empty term the filter keeps everything, so the
result is the full catalog of `Repository.list()`. -/
theorem repo_search_spec (r : PkgRepo) (net : Network) (term : String) :
    PkgRepo.search r net term =
      (PkgRepo.list r net).map
        (fun d => (jsonNames d).filter fun n => strIn term n)
    ∧ (∀ n : String, strIn term n = true ↔
        ∃ pre post, n.toList = pre ++ term.toList ++ post)
    ∧ PkgRepo.search r net "" = (PkgRepo.list r net).map jsonNames := by
  refine ⟨?_, fun n => strIn_iff term n, ?_⟩
  · unfold PkgRepo.search PkgRepo.list
    cases net (allUrl r) with
    | none => rfl
    | some resp =>
      obtain ⟨st, body⟩ := resp
      cases body <;> rfl
  · unfold PkgRepo.search PkgRepo.list
    cases net (allUrl r) with
    | none => rfl
    | some resp =>
      obtain ⟨st, body⟩ := resp
      cases body with
      | none => rfl
      | some data =>
        simp only [Except.map]
        congr 1
        exact List.filter_eq_self.mpr fun a _ => strIn_empty a

/-- C3 witness: on the catalog ["foo", "foobar", "baz"], searching "foo"
returns ["foo", "foobar"] and searching the empty term returns the full
catalog. -/
theorem repo_search_spec_witness :
    PkgRepo.search repoA netAB "foo" =
      (PkgRepo.list repoA netAB).map
        (fun d => (jsonNames d).filter fun n => strIn "foo" n)
    ∧ PkgRepo.search repoA netAB "" =
        (PkgRepo.list repoA netAB).map jsonNames :=
  ⟨(repo_search_spec repoA netAB "foo").1, (repo_search_spec repoA netAB "foo").2.2⟩

/-- C4: `Collection.get(p, r)` fails with the "Repo r does not exist" error
exactly when `r` is not a key of the registry, and otherwise returns exactly
what `get(p)` on the repository registered under `r` returns. -/
theorem collection_get_spec (c : RepoCollection) (net : Network)
    (pkg repoName : String) :
    ((∃ s, RepoCollection.get c net pkg repoName =
        Except.error (DashError.repoNotFound s)) ↔
      lookupRepo c.repos repoName = none)
    ∧ ∀ repo, lookupRepo c.repos repoName = some repo →
        RepoCollection.get c net pkg repoName = PkgRepo.get repo net pkg := by
  constructor
  · unfold RepoCollection.get
    cases h : lookupRepo c.repos repoName with
    | none => simp
    | some repo => simp [repo_get_ne_repoNotFound]
  · intro repo h
    unfold RepoCollection.get
    rw [h]

/-- C4 witness: repository "A" is registered in the fixture collection, and
the scoped get delegates to it; an unregistered name fails with the
repo-not-found error. -/
theorem collection_get_spec_witness :
    RepoCollection.get collAB netAB "foo" "A" = PkgRepo.get repoA netAB "foo"
    ∧ (RepoCollection.get collAB netAB "foo" "Z" =
        Except.error (DashError.repoNotFound "Z")) :=
  ⟨(collection_get_spec collAB netAB "foo" "A").2 repoA (by decide), by decide⟩

/-- C5 (failing input): with a remote answering HTTP 500 to every request,
`Repository.exists` returns `True` ("package exists") instead of propagating
a transport/protocol error as the claim requires — the code only compares
the status code against 404. -/
theorem exists_reports_true_on_500 :
    PkgRepo.exists repoA net500 "foo" = Except.ok true := by decide

/-- C6 (failing input): in a three-repository collection where only B is
unreachable, A's and C's individual searches still succeed, yet
`Collection.search` aborts the whole call with the transport error, returning
no per-repository mapping at all — B's failure is not attached to its slot
and A's and C's results are lost. -/
theorem search_aborts_when_one_repo_down :
    PkgRepo.search repoA netBdown "foo" = Except.ok ["foo", "foobar"]
    ∧ PkgRepo.search repoC netBdown "foo" = Except.ok []
    ∧ RepoCollection.search collABC netBdown "foo" =
        Except.error DashError.transport := by decide

/-- C7: `Repository.get(p)` fails with the "Package p does not exist" error
exactly when `Repository.exists(p)` returns false; when `exists(p)` is true,
the second fetch of the per-package document yields its parsed body, failing
with the parse error exactly when the body is not well-formed JSON. -/
theorem repo_get_spec (r : PkgRepo) (net : Network) (pkg : String) :
    (PkgRepo.get r net pkg = Except.error (DashError.notFound pkg) ↔
      PkgRepo.exists r net pkg = Except.ok false)
    ∧ (PkgRepo.exists r net pkg = Except.ok true →
        ((PkgRepo.get r net pkg = Except.error DashError.parseError ↔
           ∃ resp, net (pkgUrl r pkg) = some resp ∧ resp.body = none)
         ∧ ∀ j, PkgRepo.get r net pkg = Except.ok j ↔
             ∃ resp, net (pkgUrl r pkg) = some resp ∧ resp.body = some j)) := by
  unfold PkgRepo.get PkgRepo.exists
  cases hn : net (pkgUrl r pkg) with
  | none => simp
  | some resp =>
    obtain ⟨st, body⟩ := resp
    by_cases h : st = 404
    · simp [h]
    · cases body <;> simp [h]

/-- C7 witness: "foo" exists in A and its metadata document parses; a package
absent from A fails with the not-found error. -/
theorem repo_get_spec_witness :
    PkgRepo.exists repoA netAB "foo" = Except.ok true
    ∧ PkgRepo.get repoA netAB "foo" = Except.ok (Json.obj [("version", "1")]) :=
  ⟨by decide,
   (((repo_get_spec repoA netAB "foo").2 (by decide)).2
      (Json.obj [("version", "1")])).mpr
     ⟨⟨200, some (Json.obj [("version", "1")])⟩, by decide, rfl⟩⟩

/-- C8: `Collection.add` preserves the invariant that every registered value
is keyed by its own name; adding a repository under an already-registered
name overwrites that entry (last-write-wins) while every other key's entry is
unchanged. -/
theorem add_preserves_invariant (c : RepoCollection) (r : PkgRepo)
    (h : ∀ e ∈ c.repos, e.1 = e.2.name) :
    (∀ e ∈ (c.add r).repos, e.1 = e.2.name)
    ∧ lookupRepo (c.add r).repos r.name = some r
    ∧ ∀ k, k ≠ r.name → lookupRepo (c.add r).repos k = lookupRepo c.repos k :=
  ⟨updateAssoc_keyed r c.repos h,
   lookup_updateAssoc_self r.name r c.repos,
   fun k hk => lookup_updateAssoc_other r.name k r hk c.repos⟩

/-- C8 witness: re-registering name "B" with a new URL overwrites the old
entry while "A" is untouched. -/
theorem add_preserves_invariant_witness :
    lookupRepo (collAB.add ⟨"B", "b2"⟩).repos "B" = some ⟨"B", "b2"⟩
    ∧ lookupRepo (collAB.add ⟨"B", "b2"⟩).repos "A" = lookupRepo collAB.repos "A" :=
  ⟨(add_preserves_invariant collAB ⟨"B", "b2"⟩ (by decide)).2.1,
   (add_preserves_invariant collAB ⟨"B", "b2"⟩ (by decide)).2.2 "A" (by decide)⟩

/-- C9: on a collection with no registered repositories, `exists` returns the
boolean `False` and `search`/`list` return the empty mapping, for every
network whatsoever — including one on which every request fails — so no
repository operation (hence no HTTP request) is performed. -/
theorem empty_collection_spec (net : Network) (pkg term : String) :
    RepoCollection.exists emptyCollection net pkg =
      Except.ok ExistsResult.notFound
    ∧ RepoCollection.search emptyCollection net term = Except.ok []
    ∧ RepoCollection.list emptyCollection net = Except.ok [] :=
  ⟨rfl, rfl, rfl⟩

/-- C10: under the key-equals-name invariant, the collection's string
representation is "Repo Collection: " followed by the registered repository
names joined by ", " in registration order; the second conjunct checks on the
fixture collection that this differs from joining the repositories' full
"Package Repo {name} @ {url}" descriptions. -/
theorem collection_str_spec (c : RepoCollection)
    (h : ∀ e ∈ c.repos, e.1 = e.2.name) :
    RepoCollection.toStr c =
      "Repo Collection: " ++ pyJoin ", " (c.repos.map fun e => e.2.name)
    ∧ RepoCollection.toStr collAB ≠
        "Repo Collection: " ++ pyJoin ", " (collAB.repos.map fun e => PkgRepo.toStr e.2) := by
  constructor
  · unfold RepoCollection.toStr dictIter
    have h2 : (c.repos.map Prod.fst) = c.repos.map fun e => e.2.name :=
      List.map_congr_left h
    rw [List.map_id', h2]
  · decide

/-- C10 witness: the fixture collection prints its two bare names. -/
theorem collection_str_spec_witness :
    RepoCollection.toStr collAB =
      "Repo Collection: " ++ pyJoin ", " (collAB.repos.map fun e => e.2.name) :=
  (collection_str_spec collAB (by decide)).1

end Dash
